import Mathlib

/-!
Shallow embedding of the redis-eventbus library (src/src/eventbus.ts,
src/src/stream.ts, src/src/types.ts) and proofs about it.  Pure JS values are
modelled directly; `Option` encodes a possibly-absent (`undefined`) field;
the Redis store operations the code issues are modelled as explicit state
passing over a small store state, with Redis command semantics as documented
in the spec's store-API section.
-/

namespace RedisEventBus

/-- Delivery modes (types.ts, `EventMode`). -/
inductive EventMode
  | broadcast
  | unicast
  | anycast
deriving DecidableEq, Repr

/-- Bus roles (types.ts, `EventBusRole`). -/
inductive EventBusRole
  | publisher
  | consumer
  | both
deriving DecidableEq, Repr

/-- Constructor options (types.ts, `EventBusOptions`); `none` encodes an absent
field.  The `redis` connection config is an opaque collaborator and is not
modelled. -/
structure EventBusOptions where
  name : Option String
  messageRetention : Option Nat
  streamTTL : Option Nat
  onlyNew : Option Bool
  debug : Option Bool
  maxMessageCount : Option Nat
  role : Option EventBusRole
deriving DecidableEq, Repr

/-- The options record after the `EventBus` constructor's resolution. -/
structure ResolvedOptions where
  name : String
  messageRetention : Nat
  streamTTL : Nat
  onlyNew : Bool
  debug : Bool
  maxMessageCount : Nat
  role : Option EventBusRole
deriving DecidableEq, Repr

/-- JS truthiness of a possibly-absent string: `undefined` and `""` are falsy. -/
def strTruthy : Option String → Bool
  | none => false
  | some s => s != ""

/-- Option resolution performed by the `EventBus` constructor (eventbus.ts
21-30).  `name` and `messageRetention` use JS `||` (any falsy value is
replaced), `streamTTL` uses `??` followed by `Math.max(.., 5 * 60)`, the rest
use `??`.  The constructor spreads the raw options and never assigns `role`,
so `role` is carried through unresolved. -/
def resolveOptions (o : EventBusOptions) : ResolvedOptions where
  name :=
    match o.name with
    | some s => if s != "" then s else "default"
    | none => "default"
  messageRetention :=
    match o.messageRetention with
    | some n => if n != 0 then n else 5 * 60 * 1000
    | none => 5 * 60 * 1000
  streamTTL := max (o.streamTTL.getD (60 * 60)) (5 * 60)
  onlyNew := o.onlyNew.getD false
  debug := o.debug.getD false
  maxMessageCount := o.maxMessageCount.getD 5000
  role := o.role

/-- Key namespace prefix (eventbus.ts 34, `this.keyPrefix`). -/
def keyPfx (name : String) : String := "eventbus:" ++ name ++ ":"

/-- Per-stream reader configuration (stream.ts, `EventStreamOptions`; the
connection and the handler callback are modelled separately). -/
structure EventStreamOptions where
  stream : String
  group : String
  consumer : String
  batchSize : Nat
  onlyNew : Bool
  messageRetention : Nat
deriving DecidableEq, Repr

/-- The three per-instance stream readers (eventbus.ts 35-69, `this.streams`):
anycast with the single shared group and batch 1, broadcast with a
per-instance group and batch 1, unicast on the instance's private stream with
batch 10. -/
def streamsOf (opts : ResolvedOptions) (instanceId : String) :
    EventMode → EventStreamOptions
  | .anycast =>
    { stream := keyPfx opts.name ++ "anycast"
      group := keyPfx opts.name ++ "group"
      consumer := instanceId
      batchSize := 1
      onlyNew := opts.onlyNew
      messageRetention := opts.messageRetention }
  | .broadcast =>
    { stream := keyPfx opts.name ++ "broadcast"
      group := keyPfx opts.name ++ instanceId
      consumer := instanceId
      batchSize := 1
      onlyNew := opts.onlyNew
      messageRetention := opts.messageRetention }
  | .unicast =>
    { stream := keyPfx opts.name ++ "unicast:" ++ instanceId
      group := keyPfx opts.name ++ instanceId
      consumer := instanceId
      batchSize := 10
      onlyNew := opts.onlyNew
      messageRetention := opts.messageRetention }

/-- Iteration order of `Object.values(this.streams)` (insertion order of the
record literal at eventbus.ts 35-69). -/
def busStreamModes : List EventMode :=
  [EventMode.anycast, EventMode.broadcast, EventMode.unicast]

/-- Handler identity: a JS function object's identity, abstracted to a number. -/
abbrev Handler := Nat

/-- The subscriber table `Map<string, Set<EventHandler>>` (eventbus.ts 18),
modelled as an association list in insertion order with set-valued entries. -/
abbrev HandlerTable := List (String × List Handler)

/-- Map lookup (`Map.get`). -/
def tableGet (t : HandlerTable) (k : String) : Option (List Handler) :=
  match t.find? (fun p => p.1 == k) with
  | some p => some p.2
  | none => none

/-- Map write (`Map.set`, or in-place mutation of the stored `Set`): replaces
an existing entry for the key, otherwise appends one. -/
def tableSet (t : HandlerTable) (k : String) (v : List Handler) : HandlerTable :=
  if (t.find? (fun p => p.1 == k)).isSome then
    t.map (fun p => if p.1 == k then (k, v) else p)
  else
    t ++ [(k, v)]

/-- Map entry removal (`Map.delete`). -/
def tableDelete (t : HandlerTable) (k : String) : HandlerTable :=
  t.filter (fun p => p.1 != k)

/-- `Set.add`: no effect when the element is already present. -/
def setAdd (hs : List Handler) (h : Handler) : List Handler :=
  if h ∈ hs then hs else hs ++ [h]

/-- `Set.delete`: removes the element. -/
def setDelete (hs : List Handler) (h : Handler) : List Handler :=
  hs.filter (fun x => x != h)

/-- EventBus.on (eventbus.ts 201-206): create an empty set for the topic when
absent, then add the handler to the topic's set. -/
def busOn (t : HandlerTable) (ty : String) (h : Handler) : HandlerTable :=
  let ensured := if (tableGet t ty).isSome then t else tableSet t ty []
  tableSet ensured ty (setAdd ((tableGet ensured ty).getD []) h)

/-- EventBus.off (eventbus.ts 213-221): remove the handler from the topic's
set; when the set empties, delete the topic entry entirely; unknown topics are
a no-op. -/
def busOff (t : HandlerTable) (ty : String) (h : Handler) : HandlerTable :=
  match tableGet t ty with
  | none => t
  | some hs =>
    let hs2 := setDelete hs h
    if hs2.isEmpty then tableDelete t ty else tableSet t ty hs2

/-- Public subscription calls as they affect the subscriber table.  `once`
(eventbus.ts 228-237) registers a fresh wrapper closure through `on`; the
`h` carried by `once` stands for that wrapper's identity, which is all the
table ever sees. -/
inductive BusOp
  | on (ty : String) (h : Handler)
  | off (ty : String) (h : Handler)
  | once (ty : String) (h : Handler)
deriving DecidableEq, Repr

/-- Effect of one subscription call on the table. -/
def applyOp (t : HandlerTable) : BusOp → HandlerTable
  | .on ty h => busOn t ty h
  | .off ty h => busOff t ty h
  | .once ty h => busOn t ty h

/-- Effect of a call sequence, first call first. -/
def applyOps (t : HandlerTable) (ops : List BusOp) : HandlerTable :=
  ops.foldl applyOp t

/-- The invariant of claim C10: no topic entry holds an empty handler set. -/
def noEmptyEntry (t : HandlerTable) : Prop := ∀ p ∈ t, p.2 ≠ []

/-- One record of an XREADGROUP reply: the store-assigned id and the flat
field-value array. -/
structure StreamRecord where
  recordId : String
  fields : List String
deriving DecidableEq, Repr

/-- One stream entry `[streamKey, records]` of an XREADGROUP reply. -/
structure ReplyEntry where
  key : String
  records : List StreamRecord
deriving DecidableEq, Repr

/-- What the reader loop does with one record: the raw value handed to
`EJSON.parse` and then the handler (`none` when the field array has no second
element), and the record id subsequently XACKed. -/
structure RecordAction where
  dispatched : Option String
  acked : String
deriving DecidableEq, Repr

/-- Body of the reader loop for one non-null XREADGROUP reply (stream.ts
83-102): for each stream entry `message`, the code examines only
`message[1][0]` - the first record - dispatching its decoded value (handler
errors are caught and logged) and XACKing its id.  Records after the first in
an entry are never touched. -/
def processReply (reply : List ReplyEntry) : List RecordAction :=
  reply.filterMap (fun entry =>
    match entry.records with
    | [] => none
    | r :: _ => some { dispatched := r.fields.get? 1, acked := r.recordId })

/-- A subscriber callback as dispatch sees it: an identity plus whether its
invocation throws/rejects. -/
structure HandlerRun where
  hid : Handler
  throws : Bool
deriving DecidableEq, Repr

/-- The iteration inside handleMessage (eventbus.ts 76-81): each handler of
the topic's set is awaited in order with no surrounding try/catch, so a
throwing handler makes the whole dispatch reject and iteration stops there.
Returns the handlers actually invoked and whether an exception propagated. -/
def runHandlers : List HandlerRun → List Handler × Bool
  | [] => ([], false)
  | h :: rest =>
    if h.throws then ([h.hid], true)
    else
      let r := runHandlers rest
      (h.hid :: r.1, r.2)

/-- Delivery of one record by the reader (stream.ts 90-100): the dispatch
callback runs inside try/catch (errors only logged), then XACK is issued
unconditionally.  Returns the invoked handlers and whether the record was
acked. -/
def deliverRecord (hs : List HandlerRun) : List Handler × Bool :=
  ((runHandlers hs).1, true)

/-- A message as passed to emit (types.ts, `EventMessage`); the payload is
abstracted to a number. -/
structure EventMessage where
  mode : Option EventMode
  target : Option String
  data : Nat
deriving DecidableEq, Repr

/-- The envelope emit builds (eventbus.ts 172-179; types.ts
`ReceivedEventMessage` without the store id). -/
structure Envelope where
  mode : EventMode
  target : Option String
  event : String
  data : Nat
  timestamp : Nat
  source : String
deriving DecidableEq, Repr

/-- Mode resolution in emit (eventbus.ts 168-170):
`message.target ? UNICAST : (message.mode ?? BROADCAST)`; JS truthiness makes
an absent or empty-string target falsy. -/
def emitMode (m : EventMessage) : EventMode :=
  if strTruthy m.target then .unicast else m.mode.getD .broadcast

/-- Envelope built by emit (eventbus.ts 172-179): spread of the message plus
the resolved mode, the event, `Date.now()` and the instance id; the `target`
field is carried through unchanged by the spread. -/
def emitEnvelope (instanceId : String) (now : Nat) (event : String)
    (m : EventMessage) : Envelope :=
  { mode := emitMode m
    target := m.target
    event := event
    data := m.data
    timestamp := now
    source := instanceId }

/-- JS string conversion of a possibly-undefined string: concatenating
`undefined` yields the text "undefined". -/
def jsStr : Option String → String
  | none => "undefined"
  | some s => s

/-- Stream key chosen by emit (eventbus.ts 182-185): for the resolved mode
UNICAST the key is built from `message.target` directly, otherwise it is the
stream key of that mode's entry in `this.streams`. -/
def emitStreamKey (opts : ResolvedOptions) (instanceId : String)
    (m : EventMessage) : String :=
  if emitMode m = EventMode.unicast then
    keyPfx opts.name ++ "unicast:" ++ jsStr m.target
  else
    (streamsOf opts instanceId (emitMode m)).stream

/-- Contents of the streams of the store, keyed by stream key, used to model
XADD. -/
abbrev EnvStore := List (String × List Envelope)

/-- XADD key * message value (store API): appends the record to the stream,
creating the stream when absent, and returns the store-assigned record id,
modelled as the resulting length of that stream. -/
def storeXadd (store : EnvStore) (key : String) (env : Envelope) :
    EnvStore × Nat :=
  let newStore :=
    match store.find? (fun p => p.1 == key) with
    | some _ => store.map (fun q => if q.1 == key then (q.1, q.2 ++ [env]) else q)
    | none => store ++ [(key, [env])]
  (newStore,
    ((newStore.find? (fun p => p.1 == key)).map (fun p => p.2.length)).getD 0)

/-- Result of one emit call. -/
structure EmitResult where
  envelope : Envelope
  streamKey : String
  storedAt : EnvStore
  returnedId : Nat
deriving DecidableEq, Repr

/-- EventBus.emit (eventbus.ts 167-194): build the envelope, choose the stream
key, XADD the encoded envelope as the single `message` field, and return the
store-assigned id. -/
def eventBusEmit (opts : ResolvedOptions) (instanceId : String) (now : Nat)
    (store : EnvStore) (event : String) (m : EventMessage) : EmitResult :=
  let env := emitEnvelope instanceId now event m
  let key := emitStreamKey opts instanceId m
  let r := storeXadd store key env
  { envelope := env, streamKey := key, storedAt := r.1, returnedId := r.2 }

/-- Minimal stream-store state for group management: which stream keys exist,
each group's start id keyed by (stream, group), and per-key TTLs in seconds
(newest entry first). -/
structure StoreState where
  streams : List String
  groups : List ((String × String) × String)
  ttls : List (String × Nat)
deriving DecidableEq, Repr

/-- Whether a consumer group exists on a stream. -/
def hasGroup (st : StoreState) (stream group : String) : Bool :=
  (st.groups.find? (fun g => g.1 == (stream, group))).isSome

/-- The start id a group was created with. -/
def groupStartId (st : StoreState) (stream group : String) : Option String :=
  (st.groups.find? (fun g => g.1 == (stream, group))).map (fun g => g.2)

/-- Whether a stream key exists. -/
def streamExists (st : StoreState) (key : String) : Bool :=
  st.streams.contains key

/-- The TTL currently set on a key, if any. -/
def ttlOf (st : StoreState) (key : String) : Option Nat :=
  (st.ttls.find? (fun p => p.1 == key)).map (fun p => p.2)

/-- XGROUP CREATE key group startId MKSTREAM (store API): errors with
BUSYGROUP when the group already exists on the stream; otherwise creates the
stream if absent (MKSTREAM) and registers the group with the start id. -/
def xgroupCreateMk (st : StoreState) (stream group startId : String) :
    Except String StoreState :=
  if hasGroup st stream group then Except.error "BUSYGROUP"
  else Except.ok
    { st with
      streams := if st.streams.contains stream then st.streams else stream :: st.streams
      groups := ((stream, group), startId) :: st.groups }

/-- EXPIRE key seconds (store API): sets the TTL when the key exists, is a
no-op otherwise. -/
def storeExpire (st : StoreState) (key : String) (secs : Nat) : StoreState :=
  if streamExists st key then { st with ttls := (key, secs) :: st.ttls } else st

/-- The group start id the reader configures (stream.ts 35). -/
def streamStartId (onlyNew : Bool) : String := if onlyNew then "$" else "0"

/-- EventStream.init (stream.ts 33-48): connect; XGROUP CREATE with MKSTREAM
and the configured start id, with any error swallowed by `.catch(() => 0)`;
then EXPIRE the stream with 60 seconds (also swallowed).  The function is
total: a pre-existing group never fails init. -/
def eventStreamInit (cfg : EventStreamOptions) (st : StoreState) : StoreState :=
  let st1 :=
    match xgroupCreateMk st cfg.stream cfg.group (streamStartId cfg.onlyNew) with
    | Except.ok s => s
    | Except.error _ => st
  storeExpire st1 cfg.stream 60

/-- What EventBus.init started. -/
structure BusInitResult where
  connected : Bool
  startedLoops : List EventMode
  maintenanceStarted : Bool
deriving DecidableEq, Repr

/-- EventBus.init (eventbus.ts 154-160): `redis.connect()`, then
`stream.init()` on every entry of `Object.values(this.streams)` (which starts
each reader loop), then `startMaintenanceTimer()`.  The resolved options -
including `role` - are in scope but the body never branches on them. -/
def eventBusInit (opts : ResolvedOptions) : BusInitResult :=
  { connected := true
    startedLoops := busStreamModes
    maintenanceStarted := true }

/-- Store actions issued by the maintenance pass. -/
inductive StoreAction
  | xtrim (key : String) (maxlen : Nat)
  | expire (key : String) (seconds : Nat)
  | xinfoConsumers (stream group : String)
  | delConsumer (stream group consumer : String)
deriving DecidableEq, Repr

/-- One row of an XINFO CONSUMERS reply: consumer name and its idle time as
reported by the store. -/
structure ConsumerInfo where
  name : String
  idle : Nat
deriving DecidableEq, Repr

/-- Per-stream maintenance pass (eventbus.ts 84-110, through the consumer
pruning): XTRIM MAXLEN maxMessageCount, EXPIRE with streamTTL,
XINFO CONSUMERS, then XGROUP DELCONSUMER for exactly those reported consumers
whose idle value exceeds streamTTL (`idle > this.options.streamTTL`).  The
broadcast-group GC of lines 112-136 is timer-driven and modelled nowhere
a claim needs it. -/
def maintainStreamActions (opts : ResolvedOptions) (cfg : EventStreamOptions)
    (consumers : List ConsumerInfo) : List StoreAction :=
  [StoreAction.xtrim cfg.stream opts.maxMessageCount,
   StoreAction.expire cfg.stream opts.streamTTL,
   StoreAction.xinfoConsumers cfg.stream cfg.group]
  ++ (consumers.filter (fun c => opts.streamTTL < c.idle)).map
      (fun c => StoreAction.delConsumer cfg.stream cfg.group c.name)

/-- Lifecycle state of one bus instance: whether the control connection is
open, the subscriber table, and whether maintenance and the reader loops run. -/
structure BusState where
  connOpen : Bool
  handlers : HandlerTable
  maintenanceRunning : Bool
  loopsRunning : Bool
deriving DecidableEq, Repr

/-- EventBus.close (eventbus.ts 239-247): quit the control connection, clear
the maintenance interval, stop every stream loop.  No closed flag is recorded
anywhere that the subscription methods consult. -/
def eventBusClose (b : BusState) : BusState :=
  { b with connOpen := false, maintenanceRunning := false, loopsRunning := false }

/-- EventBus.on as a state operation: mutates the subscriber table with no
check of connection or lifecycle state (eventbus.ts 201-206). -/
def busStateOn (b : BusState) (ty : String) (h : Handler) : BusState :=
  { b with handlers := busOn b.handlers ty h }

/-- EventBus.off as a state operation: likewise unguarded (eventbus.ts
213-221). -/
def busStateOff (b : BusState) (ty : String) (h : Handler) : BusState :=
  { b with handlers := busOff b.handlers ty h }

/-- EventBus.once as a state operation: registers the wrapper through on,
likewise unguarded (eventbus.ts 228-237); `h` is the wrapper's identity. -/
def busStateOnce (b : BusState) (ty : String) (h : Handler) : BusState :=
  busStateOn b ty h

/-- EventBus.emit as a state operation: XADD goes over the control connection;
commands on a quit connection are rejected by the store client (spec: after
close, store-backed calls fail; during emit transport errors surface to the
caller). -/
def busStateEmit (b : BusState) (opts : ResolvedOptions) (instanceId : String)
    (now : Nat) (store : EnvStore) (event : String) (m : EventMessage) :
    Except String EmitResult :=
  if b.connOpen then Except.ok (eventBusEmit opts instanceId now store event m)
  else Except.error "Connection is closed"

/-- Constructor options with every field absent. -/
def baseOpts : EventBusOptions :=
  { name := none, messageRetention := none, streamTTL := none, onlyNew := none,
    debug := none, maxMessageCount := none, role := none }

/-- Fully defaulted resolved options, used by concrete examples. -/
def opts0 : ResolvedOptions := resolveOptions baseOpts

/-- A freshly initialized bus lifecycle state. -/
def bus0 : BusState :=
  { connOpen := true, handlers := [], maintenanceRunning := true,
    loopsRunning := true }

/-- The anycast reader configuration of a default-options instance "i1". -/
def cfgA : EventStreamOptions := streamsOf opts0 "i1" EventMode.anycast

/-- The empty store. -/
def st0 : StoreState := ⟨[], [], []⟩

/-- A store where the anycast stream and its group already exist. -/
def stPre0 : StoreState := ⟨[cfgA.stream], [((cfgA.stream, cfgA.group), "0")], []⟩

/-- Membership in a written table: an element is the written entry or an
untouched entry of the original table with a different key. -/
theorem mem_tableSet_elim {t : HandlerTable} {k : String} {v : List Handler}
    {p : String × List Handler} (hp : p ∈ tableSet t k v) :
    p = (k, v) ∨ (p ∈ t ∧ p.1 ≠ k) := by
  unfold tableSet at hp
  split at hp
  · rcases List.mem_map.mp hp with ⟨q, hq, he⟩
    by_cases hqk : q.1 = k
    · left
      rw [if_pos (by simpa using hqk)] at he
      exact he.symm
    · right
      rw [if_neg (by simpa using hqk)] at he
      rw [← he]
      exact ⟨hq, hqk⟩
  · next hfind =>
    rcases List.mem_append.mp hp with h1 | h1
    · right
      refine ⟨h1, fun hk => ?_⟩
      have hnone : t.find? (fun q => q.1 == k) = none :=
        Option.not_isSome_iff_eq_none.mp hfind
      have h2 := List.find?_eq_none.mp hnone p h1
      simp [hk] at h2
    · left
      simpa using h1

/-- An entry found by tableGet is an entry of the table. -/
theorem exists_mem_of_tableGet {t : HandlerTable} {ty : String}
    {hs : List Handler} (h : tableGet t ty = some hs) :
    ∃ p, p ∈ t ∧ p.2 = hs := by
  unfold tableGet at h
  cases hfx : t.find? (fun p => p.1 == ty) with
  | none => rw [hfx] at h; cases h
  | some q =>
    rw [hfx] at h
    cases h
    exact ⟨q, List.mem_of_find?_eq_some hfx, rfl⟩

/-- Set insertion never yields the empty set. -/
theorem setAdd_ne_nil (hs : List Handler) (h : Handler) : setAdd hs h ≠ [] := by
  unfold setAdd
  split
  · next hmem => exact List.ne_nil_of_mem hmem
  · simp

/-- on preserves the no-empty-entry invariant. -/
theorem noEmptyEntry_busOn {t : HandlerTable} (ht : noEmptyEntry t)
    (ty : String) (h : Handler) : noEmptyEntry (busOn t ty h) := by
  intro p hp
  have hp2 : p ∈ tableSet (if (tableGet t ty).isSome then t else tableSet t ty [])
      ty (setAdd ((tableGet (if (tableGet t ty).isSome then t
        else tableSet t ty []) ty).getD []) h) := by
    simpa [busOn] using hp
  rcases mem_tableSet_elim hp2 with he | ⟨hpt, hkey⟩
  · rw [he]
    exact setAdd_ne_nil _ _
  · by_cases hsome : (tableGet t ty).isSome
    · rw [if_pos hsome] at hpt
      exact ht p hpt
    · rw [if_neg hsome] at hpt
      rcases mem_tableSet_elim hpt with he2 | ⟨hpt2, _⟩
      · exact absurd (by rw [he2]) hkey
      · exact ht p hpt2

/-- off preserves the no-empty-entry invariant. -/
theorem noEmptyEntry_busOff {t : HandlerTable} (ht : noEmptyEntry t)
    (ty : String) (h : Handler) : noEmptyEntry (busOff t ty h) := by
  intro p hp
  unfold busOff at hp
  cases hget : tableGet t ty with
  | none =>
    rw [hget] at hp
    exact ht p hp
  | some hs =>
    rw [hget] at hp
    simp only at hp
    split at hp
    · exact ht p (List.mem_of_mem_filter hp)
    · next hne =>
      rcases mem_tableSet_elim hp with he | ⟨hpt, _⟩
      · rw [he]
        simpa [List.isEmpty_iff] using hne
      · exact ht p hpt

/-- Every subscription call preserves the no-empty-entry invariant. -/
theorem noEmptyEntry_applyOp {t : HandlerTable} (ht : noEmptyEntry t)
    (op : BusOp) : noEmptyEntry (applyOp t op) :=
  match op with
  | .on ty h => noEmptyEntry_busOn ht ty h
  | .off ty h => noEmptyEntry_busOff ht ty h
  | .once ty h => noEmptyEntry_busOn ht ty h

/-- Every sequence of subscription calls preserves the invariant. -/
theorem noEmptyEntry_applyOps (ops : List BusOp) :
    ∀ t : HandlerTable, noEmptyEntry t → noEmptyEntry (applyOps t ops) := by
  induction ops with
  | nil => intro t ht; simpa [applyOps] using ht
  | cons op rest ih =>
    intro t ht
    have : noEmptyEntry (applyOp t op) := noEmptyEntry_applyOp ht op
    simpa [applyOps, List.foldl_cons] using ih (applyOp t op) this

/-- Invoked prefix of a dispatch that hits a throwing handler: everything
before the throwing handler, then the throwing handler itself, nothing after. -/
theorem runHandlers_fst_append_throw (pre post : List HandlerRun)
    (h : HandlerRun) (hth : h.throws = true)
    (hpre : ∀ x ∈ pre, x.throws = false) :
    (runHandlers (pre ++ h :: post)).1 = pre.map HandlerRun.hid ++ [h.hid] := by
  induction pre with
  | nil => simp [runHandlers, hth]
  | cons a as ih =>
    have ha : a.throws = false := hpre a (by simp)
    have ih2 := ih (fun x hx => hpre x (by simp [hx]))
    simp [runHandlers, ha, ih2]

/-- C1 (code bug): the spec says every record of a returned XREADGROUP batch
is decoded, dispatched and XACKed, with batch sizes anycast 1, broadcast 1,
unicast 10.  The batch sizes hold, but the loop body reads only
`message[1][0]`: in a unicast batch holding two records, only the first is
dispatched and acked; the second is neither. -/
theorem reader_batch_tail_records_dropped :
    (streamsOf opts0 "i1" EventMode.anycast).batchSize = 1
    ∧ (streamsOf opts0 "i1" EventMode.broadcast).batchSize = 1
    ∧ (streamsOf opts0 "i1" EventMode.unicast).batchSize = 10
    ∧ processReply [⟨"eventbus:default:unicast:i1",
        [⟨"1-1", ["message", "a"]⟩, ⟨"1-2", ["message", "b"]⟩]⟩]
      = [⟨some "a", "1-1"⟩] := by
  refine ⟨rfl, rfl, rfl, rfl⟩

/-- C2 counterexample: with a handler set of two handlers whose first member
throws, the second handler is not invoked (the claim says it still is),
although the record is acked. -/
theorem dispatch_throw_counterexample :
    deliverRecord [⟨0, true⟩, ⟨1, false⟩] = ([0], true)
    ∧ (1 : Handler) ∉ (deliverRecord [⟨0, true⟩, ⟨1, false⟩]).1 := by
  refine ⟨rfl, by decide⟩

/-- C2 (amended): when dispatch reaches a handler that throws or rejects, the
handlers after it in the set are NOT invoked - dispatch stops at the throwing
handler - but the record is still acked. -/
theorem dispatch_throw_skips_rest_still_acked (pre post : List HandlerRun)
    (h : HandlerRun) (hth : h.throws = true)
    (hpre : ∀ x ∈ pre, x.throws = false) :
    deliverRecord (pre ++ h :: post)
      = (pre.map HandlerRun.hid ++ [h.hid], true) := by
  unfold deliverRecord
  rw [runHandlers_fst_append_throw pre post h hth hpre]

/-- Witness for C2: a concrete dispatch [ok, throws, ok] invokes exactly the
first two handlers and acks. -/
theorem dispatch_throw_skips_rest_still_acked_witness :
    deliverRecord [⟨1, false⟩, ⟨2, true⟩, ⟨3, false⟩] = ([1, 2], true) := by
  have H := dispatch_throw_skips_rest_still_acked [⟨1, false⟩] [⟨3, false⟩]
      ⟨2, true⟩ rfl (by decide)
  simpa using H

/-- C3 (code bug): with role = publisher the constructor carries the role
through, yet init still starts all three reader loops; the spec, the option's
own documentation and the repository's publisher/consumer test require that a
publisher start none. -/
theorem init_ignores_publisher_role :
    (resolveOptions { baseOpts with role := some EventBusRole.publisher }).role
      = some EventBusRole.publisher
    ∧ (eventBusInit (resolveOptions
        { baseOpts with role := some EventBusRole.publisher })).startedLoops
      = [EventMode.anycast, EventMode.broadcast, EventMode.unicast] :=
  ⟨rfl, rfl⟩

/-- C4 counterexample: an emit with explicit mode UNICAST and no target yields
an envelope whose mode is UNICAST but whose target is absent, so target
present iff mode = UNICAST fails. -/
theorem envelope_unicast_without_target :
    (emitEnvelope "i1" 0 "e" ⟨some EventMode.unicast, none, 0⟩).mode
      = EventMode.unicast
    ∧ (emitEnvelope "i1" 0 "e" ⟨some EventMode.unicast, none, 0⟩).target
      = none :=
  ⟨rfl, rfl⟩

/-- C4 (amended): a non-empty target on the message forces the envelope's
mode to UNICAST and is carried into the envelope; the converse direction of
the claimed iff does not hold. -/
theorem truthy_target_forces_unicast (instanceId : String) (now : Nat)
    (event : String) (m : EventMessage) (h : strTruthy m.target = true) :
    (emitEnvelope instanceId now event m).mode = EventMode.unicast
    ∧ (emitEnvelope instanceId now event m).target = m.target := by
  constructor
  · show emitMode m = EventMode.unicast
    simp [emitMode, h]
  · rfl

/-- Witness for C4: a concrete emit with target "t2". -/
theorem truthy_target_forces_unicast_witness :
    (emitEnvelope "i1" 3 "e" ⟨none, some "t2", 1⟩).mode = EventMode.unicast
    ∧ (emitEnvelope "i1" 3 "e" ⟨none, some "t2", 1⟩).target = some "t2" :=
  truthy_target_forces_unicast "i1" 3 "e" ⟨none, some "t2", 1⟩ (by decide)

/-- C5: during a per-stream maintenance pass, XGROUP DELCONSUMER is issued
for a consumer name exactly when some consumer listed by XINFO CONSUMERS
under that name has a reported idle time exceeding the configured streamTTL. -/
theorem maintenance_delconsumer_iff (opts : ResolvedOptions)
    (cfg : EventStreamOptions) (consumers : List ConsumerInfo) (c : String) :
    StoreAction.delConsumer cfg.stream cfg.group c
        ∈ maintainStreamActions opts cfg consumers
    ↔ ∃ ci ∈ consumers, ci.name = c ∧ opts.streamTTL < ci.idle := by
  simp [maintainStreamActions]
  constructor
  · rintro ⟨ci, ⟨hmem, hidle⟩, hname⟩
    exact ⟨ci, hmem, hname, hidle⟩
  · rintro ⟨ci, hmem, hname, hidle⟩
    exact ⟨ci, ⟨hmem, hidle⟩, hname⟩

/-- C6 counterexample: an emit with explicit mode UNICAST and no target is
XADDed to the key "eventbus:default:unicast:undefined" (the undefined target
stringified), which is none of the streams of the instance's streams record,
in particular no shared stream. -/
theorem emit_unicast_mode_without_target_key :
    emitMode ⟨some EventMode.unicast, none, 0⟩ = EventMode.unicast
    ∧ emitStreamKey opts0 "i1" ⟨some EventMode.unicast, none, 0⟩
        = "eventbus:default:unicast:undefined"
    ∧ emitStreamKey opts0 "i1" ⟨some EventMode.unicast, none, 0⟩
        ≠ (streamsOf opts0 "i1" EventMode.broadcast).stream
    ∧ emitStreamKey opts0 "i1" ⟨some EventMode.unicast, none, 0⟩
        ≠ (streamsOf opts0 "i1" EventMode.anycast).stream
    ∧ emitStreamKey opts0 "i1" ⟨some EventMode.unicast, none, 0⟩
        ≠ (streamsOf opts0 "i1" EventMode.unicast).stream := by
  refine ⟨rfl, rfl, by decide, by decide, by decide⟩

/-- C6 (amended): emit builds the envelope with source = instance id and
timestamp = now, XADDs it and returns the store-assigned id; a non-empty
target forces mode UNICAST; whenever the resolved mode is UNICAST the key is
P ++ "unicast:" ++ target (the absent target stringifying to "undefined"),
and otherwise the mode is message.mode defaulting to BROADCAST and the key is
that mode's stream from the streams record. -/
theorem emit_routing (opts : ResolvedOptions) (instanceId : String) (now : Nat)
    (store : EnvStore) (event : String) (m : EventMessage) :
    (eventBusEmit opts instanceId now store event m).envelope
        = emitEnvelope instanceId now event m
    ∧ (eventBusEmit opts instanceId now store event m).envelope.source
        = instanceId
    ∧ (eventBusEmit opts instanceId now store event m).envelope.timestamp = now
    ∧ (eventBusEmit opts instanceId now store event m).returnedId
        = (storeXadd store (emitStreamKey opts instanceId m)
            (emitEnvelope instanceId now event m)).2
    ∧ (eventBusEmit opts instanceId now store event m).storedAt
        = (storeXadd store (emitStreamKey opts instanceId m)
            (emitEnvelope instanceId now event m)).1
    ∧ (strTruthy m.target = true →
        (eventBusEmit opts instanceId now store event m).envelope.mode
          = EventMode.unicast)
    ∧ ((eventBusEmit opts instanceId now store event m).envelope.mode
          = EventMode.unicast →
        (eventBusEmit opts instanceId now store event m).streamKey
          = keyPfx opts.name ++ "unicast:" ++ jsStr m.target)
    ∧ ((eventBusEmit opts instanceId now store event m).envelope.mode
          ≠ EventMode.unicast →
        (eventBusEmit opts instanceId now store event m).envelope.mode
            = m.mode.getD EventMode.broadcast
        ∧ (eventBusEmit opts instanceId now store event m).streamKey
            = (streamsOf opts instanceId
                ((eventBusEmit opts instanceId now store event m).envelope.mode)).stream) := by
  refine ⟨rfl, rfl, rfl, rfl, rfl, ?_, ?_, ?_⟩
  · intro h
    show emitMode m = EventMode.unicast
    simp [emitMode, h]
  · intro h
    show emitStreamKey opts instanceId m = _
    have h2 : emitMode m = EventMode.unicast := h
    simp [emitStreamKey, h2]
  · intro h
    have h2 : emitMode m ≠ EventMode.unicast := h
    have hst : strTruthy m.target = false := by
      by_contra hc
      have : strTruthy m.target = true := by
        cases hx : strTruthy m.target
        · exact absurd hx hc
        · rfl
      exact h2 (by simp [emitMode, this])
    constructor
    · show emitMode m = m.mode.getD EventMode.broadcast
      simp [emitMode, hst]
    · show emitStreamKey opts instanceId m
          = (streamsOf opts instanceId (emitMode m)).stream
      simp [emitStreamKey, h2]

/-- Witness for C6: emit with target "t9" goes to the target's unicast key;
emit with no target and no mode goes to that mode's stream from the streams
record. -/
theorem emit_routing_witness :
    (eventBusEmit opts0 "i1" 5 [] "e" ⟨none, some "t9", 7⟩).envelope.mode
        = EventMode.unicast
    ∧ (eventBusEmit opts0 "i1" 5 [] "e" ⟨none, some "t9", 7⟩).streamKey
        = keyPfx opts0.name ++ "unicast:" ++ jsStr (some "t9")
    ∧ (eventBusEmit opts0 "i1" 5 [] "e" ⟨none, none, 7⟩).streamKey
        = (streamsOf opts0 "i1"
            ((eventBusEmit opts0 "i1" 5 [] "e" ⟨none, none, 7⟩).envelope.mode)).stream := by
  obtain ⟨-, -, -, -, -, h6, h7, -⟩ :=
    emit_routing opts0 "i1" 5 [] "e" ⟨none, some "t9", 7⟩
  obtain ⟨-, -, -, -, -, -, -, h8⟩ :=
    emit_routing opts0 "i1" 5 [] "e" ⟨none, none, 7⟩
  exact ⟨h6 (by decide), h7 (h6 (by decide)), (h8 (by decide)).2⟩

/-- C7 counterexample: after close, the public operation on is not refused:
it takes effect, registering the handler in the subscriber table. -/
theorem on_after_close_takes_effect :
    tableGet (busStateOn (eventBusClose bus0) "e" 0).handlers "e"
      = some [0] := by
  decide

/-- C7 (amended): after close, store-backed emit is rejected because the
control connection has been quit, but the local subscription operations on,
off and once are not refused - they mutate the subscriber table exactly as
before close. -/
theorem close_gates_only_store_ops (b : BusState) (ty : String) (h : Handler)
    (opts : ResolvedOptions) (instanceId : String) (now : Nat)
    (store : EnvStore) (event : String) (m : EventMessage) :
    busStateEmit (eventBusClose b) opts instanceId now store event m
        = Except.error "Connection is closed"
    ∧ (busStateOn (eventBusClose b) ty h).handlers = busOn b.handlers ty h
    ∧ (busStateOff (eventBusClose b) ty h).handlers = busOff b.handlers ty h
    ∧ (busStateOnce (eventBusClose b) ty h).handlers = busOn b.handlers ty h := by
  refine ⟨?_, rfl, rfl, rfl⟩
  simp [busStateEmit, eventBusClose]

/-- C8: the reader's init creates the consumer group with start id "$" when
onlyNew and "0" otherwise, MKSTREAM makes the stream exist, the stream's TTL
is set to 60 seconds, and a pre-existing group is not an error: init still
completes, leaves the groups unchanged and still sets the 60-second TTL. -/
theorem stream_init_group_ttl (cfg : EventStreamOptions) (st stPre : StoreState)
    (hnew : hasGroup st cfg.stream cfg.group = false)
    (hpre : hasGroup stPre cfg.stream cfg.group = true)
    (hps : streamExists stPre cfg.stream = true) :
    groupStartId (eventStreamInit cfg st) cfg.stream cfg.group
        = some (if cfg.onlyNew then "$" else "0")
    ∧ streamExists (eventStreamInit cfg st) cfg.stream = true
    ∧ ttlOf (eventStreamInit cfg st) cfg.stream = some 60
    ∧ (eventStreamInit cfg stPre).groups = stPre.groups
    ∧ ttlOf (eventStreamInit cfg stPre) cfg.stream = some 60 := by
  have hnewState : eventStreamInit cfg st =
      storeExpire
        { st with
          streams := if st.streams.contains cfg.stream then st.streams
            else cfg.stream :: st.streams
          groups := ((cfg.stream, cfg.group), streamStartId cfg.onlyNew)
            :: st.groups }
        cfg.stream 60 := by
    simp [eventStreamInit, xgroupCreateMk, hnew]
  have hpreState : eventStreamInit cfg stPre = storeExpire stPre cfg.stream 60 := by
    simp [eventStreamInit, xgroupCreateMk, hpre]
  have hS : ((if st.streams.contains cfg.stream then st.streams
      else cfg.stream :: st.streams).contains cfg.stream) = true := by
    by_cases hc : st.streams.contains cfg.stream = true
    · rw [if_pos hc]; exact hc
    · rw [if_neg hc]; simp
  have hstep : eventStreamInit cfg st =
      { streams := if st.streams.contains cfg.stream then st.streams
          else cfg.stream :: st.streams
        groups := ((cfg.stream, cfg.group), streamStartId cfg.onlyNew)
          :: st.groups
        ttls := (cfg.stream, 60) :: st.ttls } := by
    rw [hnewState]
    unfold storeExpire
    rw [if_pos (show streamExists
      { st with
        streams := if st.streams.contains cfg.stream then st.streams
          else cfg.stream :: st.streams
        groups := ((cfg.stream, cfg.group), streamStartId cfg.onlyNew)
          :: st.groups } cfg.stream = true from hS)]
  refine ⟨?_, ?_, ?_, ?_, ?_⟩
  · rw [hstep]
    show (List.find? (fun g => g.1 == (cfg.stream, cfg.group))
        (((cfg.stream, cfg.group), streamStartId cfg.onlyNew)
          :: st.groups)).map (fun g => g.2)
      = some (if cfg.onlyNew then "$" else "0")
    rw [List.find?_cons_of_pos]
    · rfl
    · simp
  · rw [hstep]
    exact hS
  · rw [hstep]
    show (List.find? (fun p => p.1 == cfg.stream)
        ((cfg.stream, 60) :: st.ttls)).map (fun p => p.2) = some 60
    rw [List.find?_cons_of_pos]
    · rfl
    · simp
  · rw [hpreState]
    unfold storeExpire
    split <;> rfl
  · rw [hpreState]
    unfold storeExpire
    rw [if_pos hps]
    show (List.find? (fun p => p.1 == cfg.stream)
        ((cfg.stream, 60) :: stPre.ttls)).map (fun p => p.2) = some 60
    rw [List.find?_cons_of_pos]
    · rfl
    · simp

/-- Witness for C8: a concrete default-options anycast reader init on the
empty store and on a store where the group pre-exists. -/
theorem stream_init_group_ttl_witness :
    groupStartId (eventStreamInit cfgA st0) cfgA.stream cfgA.group = some "0"
    ∧ ttlOf (eventStreamInit cfgA st0) cfgA.stream = some 60
    ∧ (eventStreamInit cfgA stPre0).groups = stPre0.groups := by
  have H := stream_init_group_ttl cfgA st0 stPre0 (by decide) (by decide)
    (by decide)
  exact ⟨by simpa using H.1, H.2.2.1, H.2.2.2.1⟩

/-- C9: the resolved streamTTL is max(given, 300) with 3600 when absent, and
absent options resolve to name "default", messageRetention 300000 ms, onlyNew
false, debug false, maxMessageCount 5000. -/
theorem constructor_option_resolution (o : EventBusOptions) :
    (resolveOptions o).streamTTL = max (o.streamTTL.getD 3600) 300
    ∧ (o.name = none → (resolveOptions o).name = "default")
    ∧ (o.messageRetention = none →
        (resolveOptions o).messageRetention = 300000)
    ∧ (o.onlyNew = none → (resolveOptions o).onlyNew = false)
    ∧ (o.debug = none → (resolveOptions o).debug = false)
    ∧ (o.maxMessageCount = none → (resolveOptions o).maxMessageCount = 5000) := by
  refine ⟨rfl, ?_, ?_, ?_, ?_, ?_⟩
  · intro h; simp [resolveOptions, h]
  · intro h; simp [resolveOptions, h]
  · intro h; simp [resolveOptions, h]
  · intro h; simp [resolveOptions, h]
  · intro h; simp [resolveOptions, h]

/-- Witness for C9: the fully absent option set resolves to the defaults. -/
theorem constructor_option_resolution_witness :
    (resolveOptions baseOpts).streamTTL = max ((none : Option Nat).getD 3600) 300
    ∧ (resolveOptions baseOpts).name = "default"
    ∧ (resolveOptions baseOpts).messageRetention = 300000
    ∧ (resolveOptions baseOpts).maxMessageCount = 5000 := by
  have H := constructor_option_resolution baseOpts
  exact ⟨H.1, H.2.1 rfl, H.2.2.1 rfl, H.2.2.2.2.2 rfl⟩

/-- C10: starting from the empty subscriber table, after any sequence of on,
off and once calls, every topic present in the table has a non-empty handler
set. -/
theorem subscriber_table_entries_nonempty (ops : List BusOp) (ty : String)
    (hs : List Handler) (hget : tableGet (applyOps [] ops) ty = some hs) :
    hs ≠ [] := by
  obtain ⟨p, hp, he⟩ := exists_mem_of_tableGet hget
  have hinv : noEmptyEntry (applyOps [] ops) :=
    noEmptyEntry_applyOps ops [] (by intro q hq; cases hq)
  rw [← he]
  exact hinv p hp

/-- Witness for C10: a concrete one-call sequence. -/
theorem subscriber_table_entries_nonempty_witness :
    tableGet (applyOps [] [BusOp.on "e" 0]) "e" = some [0]
    ∧ ([0] : List Handler) ≠ [] :=
  ⟨by decide, subscriber_table_entries_nonempty [BusOp.on "e" 0] "e" [0]
    (by decide)⟩

end RedisEventBus
